import Mathlib

/-!
Verification of the superbot agent core: a shallow embedding of the message
bus queue, the tool contract and registry, the agent processing loop, the
session store, the LLM provider fallback logic and the subagent announce
protocol, together with theorems about the embedded definitions.

Conventions used throughout:
* JavaScript values appearing as tool arguments are modelled by the mutual
  inductive `JVal` / `JValList` / `JFields` (strings, numbers as rationals,
  booleans, null, arrays, objects as ordered field lists).
* Wall-clock instants (the `Date` values and their ISO renderings) are
  modelled as abstract instants of type `Nat`; no claim inspects their text.
* Asynchronous functions that cannot reject are modelled as total functions;
  a function that can throw is modelled with `Except String` carrying the
  thrown message.
-/

mutual

inductive JVal where
  | vstr (s : String)
  | vnum (q : Rat)
  | vbool (b : Bool)
  | vnull
  | varr (xs : JValList)
  | vobj (fields : JFields)

inductive JValList where
  | nil
  | cons (hd : JVal) (tl : JValList)

inductive JFields where
  | nil
  | cons (key : String) (val : JVal) (tl : JFields)

end

/-- The JavaScript `typeof` operator on a `JVal`; note that `typeof` of an
array and of `null` is the string `"object"`. -/
def jtypeof : JVal → String
  | JVal.vstr _ => "string"
  | JVal.vnum _ => "number"
  | JVal.vbool _ => "boolean"
  | JVal.vnull => "object"
  | JVal.varr _ => "object"
  | JVal.vobj _ => "object"

/-- The JavaScript `Array.isArray` predicate. -/
def jsIsArray : JVal → Bool
  | JVal.varr _ => true
  | _ => false

/-- The JavaScript `Number.isInteger` predicate: true exactly for number
values with no fractional part (and false for every non-number). -/
def jsIsInteger : JVal → Bool
  | JVal.vnum q => q.den == 1
  | _ => false

/-- Strict equality `===` between a schema enum entry and a candidate value.
Strict equality of two objects or two arrays is reference equality in
JavaScript; an enum entry stored in a schema is never the same object as a
freshly parsed argument value, so composite values compare false here. -/
def jvalEq : JVal → JVal → Bool
  | JVal.vstr a, JVal.vstr b => a == b
  | JVal.vnum a, JVal.vnum b => a == b
  | JVal.vbool a, JVal.vbool b => a == b
  | JVal.vnull, JVal.vnull => true
  | _, _ => false

/-- Membership test mirroring `schema.enum.includes(val)`. -/
def JValList.anyEq : JValList → JVal → Bool
  | JValList.nil, _ => false
  | JValList.cons v tl, val => jvalEq v val || JValList.anyEq tl val

/-- Key lookup over an object field list, mirroring the `in` operator on a
plain object. -/
def JFields.hasKey : JFields → String → Bool
  | JFields.nil, _ => false
  | JFields.cons k _ tl, key => k == key || JFields.hasKey tl key

/-- Field access over an object field list, mirroring `val[key]` (only used
under a `key in val` guard, so the default branch is unreachable there). -/
def JFields.getKey : JFields → String → JVal
  | JFields.nil, _ => JVal.vnull
  | JFields.cons k v tl, key => if k == key then v else JFields.getKey tl key

/-- The `in` operator used by the validator. On a non-object the JavaScript
`in` operator throws (and on an array it would test indices); tool parameters
checked under an `object` schema are object maps, the only case exercised. -/
def JVal.hasKey : JVal → String → Bool
  | JVal.vobj fs, key => JFields.hasKey fs key
  | _, _ => false

/-- Field access corresponding to `JVal.hasKey`. -/
def JVal.getKey : JVal → String → JVal
  | JVal.vobj fs, key => JFields.getKey fs key
  | _, _ => JVal.vnull

/-- Escaping of one character as performed by `JSON.stringify` inside string
literals (ASCII control characters other than the common escapes are elided;
no claim depends on them). -/
def jsonEscapeChar (c : Char) : String :=
  if c = '"' then "\\\""
  else if c = '\\' then "\\\\"
  else if c = '\n' then "\\n"
  else if c = '\r' then "\\r"
  else if c = '\t' then "\\t"
  else String.singleton c

/-- Quoted string rendering of `JSON.stringify`. -/
def jsonQuote (s : String) : String :=
  "\"" ++ String.join (s.data.map jsonEscapeChar) ++ "\""

/-- Rendering of a JavaScript number. The decimal rendering of a non-integer
number is abstracted; no claim depends on it. -/
def jsNumToString (q : Rat) : String :=
  if q.den = 1 then toString q.num else toString q

mutual

/-- The `JSON.stringify` serialization of a value. -/
def jsonStringify : JVal → String
  | JVal.vstr s => jsonQuote s
  | JVal.vnum q => jsNumToString q
  | JVal.vbool b => if b then "true" else "false"
  | JVal.vnull => "null"
  | JVal.varr xs => "[" ++ String.intercalate "," (jsonStringifyList xs) ++ "]"
  | JVal.vobj fs => "\x7b" ++ String.intercalate "," (jsonStringifyFields fs) ++ "\x7d"

def jsonStringifyList : JValList → List String
  | JValList.nil => []
  | JValList.cons x xs => jsonStringify x :: jsonStringifyList xs

def jsonStringifyFields : JFields → List String
  | JFields.nil => []
  | JFields.cons k v fs => (jsonQuote k ++ ":" ++ jsonStringify v) :: jsonStringifyFields fs

end

mutual

/-- A JSON-schema-shaped parameter description as used by the tools:
`type`, `enum`, `required` and `properties`. An absent `required` or
`properties` behaves exactly like an empty one in the source, so both are
plain lists; an absent `enum` differs from an empty one, so it is an
`Option`. -/
inductive Schema where
  | mk (ty : Option String) (en : Option JValList) (req : List String) (props : SchemaProps)

inductive SchemaProps where
  | nil
  | cons (key : String) (schema : Schema) (tl : SchemaProps)

end

/-- Accessor for the `required` list of a schema. -/
def Schema.required : Schema → List String
  | Schema.mk _ _ req _ => req

/-- The `typeMap` table of `Tool._validate`, sending a schema type name to
the expected `typeof` string. -/
def typeMapL (t : String) : Option String :=
  if t == "string" then some "string"
  else if t == "integer" then some "number"
  else if t == "number" then some "number"
  else if t == "boolean" then some "boolean"
  else if t == "array" then some "object"
  else if t == "object" then some "object"
  else none

/-- The type-checking block of `Tool._validate`: guarded by the schema
declaring a type known to `typeMap`, then the array / integer / general
`typeof` chain of checks. -/
def typeErrors (val : JVal) (ty : Option String) (label : String) : List String :=
  match ty with
  | none => []
  | some t =>
    match typeMapL t with
    | none => []
    | some mapped =>
      if t == "array" && !jsIsArray val then [label ++ " should be an array"]
      else if t == "integer" && !jsIsInteger val then [label ++ " should be an integer"]
      else if t != "array" && jtypeof val != mapped then [label ++ " should be " ++ t]
      else []

/-- The enum block of `Tool._validate`. -/
def enumErrors (val : JVal) (en : Option JValList) (label : String) : List String :=
  match en with
  | none => []
  | some vs =>
    if JValList.anyEq vs val then []
    else [label ++ " must be one of " ++ jsonStringify (JVal.varr vs)]

/-- The required-key block of `Tool._validate`: checked only when the schema
declares type `object`. -/
def requiredErrors (val : JVal) (ty : Option String) (req : List String)
    (path : String) : List String :=
  if ty == some "object" then
    req.filterMap (fun key =>
      if JVal.hasKey val key then none
      else some ("missing required " ++ (if path == "" then key else path ++ "." ++ key)))
  else []

mutual

/-- The recursive validation helper `Tool._validate(val, schema, path)`:
type checking, enum membership, required-key presence for object schemas,
and recursion into declared properties, accumulating error strings in that
order. -/
def jvalidate : JVal → Schema → String → List String
  | val, Schema.mk ty en req props, path =>
    typeErrors val ty (if path == "" then "parameter" else path) ++
    enumErrors val en (if path == "" then "parameter" else path) ++
    requiredErrors val ty req path ++
    (if ty == some "object" && jtypeof val == "object" then jvalidateProps val props path
     else [])

def jvalidateProps : JVal → SchemaProps → String → List String
  | _, SchemaProps.nil, _ => []
  | val, SchemaProps.cons key propSchema tl, path =>
    (if JVal.hasKey val key then
      jvalidate (JVal.getKey val key) propSchema (if path == "" then key else path ++ "." ++ key)
    else []) ++ jvalidateProps val tl path

end

/-- A registered tool: name, description, parameter schema and execution
function. A tool whose `execute` throws with message `m` is modelled by
`Except.error m`. -/
structure Tool where
  name : String
  description : String
  parameters : Schema
  execute : JFields → Except String String

/-- The method `Tool.validateParams(params)`: validate against the tool
schema with the top-level `type` forced to `object`. -/
def Tool.validateParams (tool : Tool) (params : JFields) : List String :=
  match tool.parameters with
  | Schema.mk _ en req props =>
    jvalidate (JVal.vobj params) (Schema.mk (some "object") en req props) ""

/-- The tool registry: a name-to-tool map, modelled as the list of entries in
insertion order. -/
structure ToolRegistry where
  tools : List Tool

/-- Lookup by name, mirroring `Map.get`. -/
def ToolRegistry.get (r : ToolRegistry) (name : String) : Option Tool :=
  r.tools.find? (fun t => t.name == name)

/-- Registration, mirroring `Map.set`: an existing key keeps its position
and gets the new value, a new key is appended. -/
def ToolRegistry.register (r : ToolRegistry) (tool : Tool) : ToolRegistry :=
  if r.tools.any (fun t => t.name == tool.name) then
    ToolRegistry.mk (r.tools.map (fun t => if t.name == tool.name then tool else t))
  else ToolRegistry.mk (r.tools ++ [tool])

/-- The guarded execution `ToolRegistry.execute(name, params)`: unknown tools
and validation failures return textual errors without invoking the tool, and
a thrown execution error is caught and converted to text, so the result is
always a plain string and never a raised exception. -/
def ToolRegistry.execute (r : ToolRegistry) (name : String) (params : JFields) : String :=
  match ToolRegistry.get r name with
  | none => "Error: Tool \x27" ++ name ++ "\x27 not found"
  | some tool =>
    let errors := Tool.validateParams tool params
    if errors.length > 0 then
      "Error: Invalid parameters for tool \x27" ++ name ++ "\x27: " ++
        String.intercalate "; " errors
    else
      match tool.execute params with
      | Except.ok result => result
      | Except.error m => "Error executing " ++ name ++ ": " ++ m

/-- A tool-call request as parsed from the provider wire response:
`createToolCall({id, name, arguments})`. The parsed `arguments` payload is an
object map; a payload that fails structured parsing is wrapped by the
provider as an object with a single `raw` field, so it is still a map. -/
structure ToolCall where
  id : String
  name : String
  arguments : JFields

/-- The dictionary recorded in an assistant message for one requested tool
call: `id`, the literal tag `type: "function"` (field `callType` here), and
the function name with its `JSON.stringify`-ed arguments. -/
structure ToolCallDict where
  id : String
  callType : String
  name : String
  argumentsJson : String

/-- One entry of the working message list sent to the provider. The optional
fields are present only on the message kinds that set them. -/
structure Msg where
  role : String
  content : String
  tool_calls : Option (List ToolCallDict)
  tool_call_id : Option String
  name : Option String

/-- A parsed provider response as built by `createLLMResponse`: nullable
content, the parsed tool-call requests, the finish reason and the token
usage (which no claim inspects). -/
structure LLMResponse where
  content : Option String
  toolCalls : List ToolCall
  finishReason : String
  usage : List (String × Nat)

/-- The `hasToolCalls` getter of `createLLMResponse`. -/
def LLMResponse.hasToolCalls (r : LLMResponse) : Bool :=
  !r.toolCalls.isEmpty

/-- The builder `ContextBuilder.buildMessages`: one system prompt, the
history window, then the new user turn. The system prompt assembly reads
identity text, bootstrap files, memory and skills from the filesystem; it is
abstracted as an input string since every claim is independent of its
content. -/
def buildMessages (systemPrompt : String) (history : List Msg) (currentMessage : String) : List Msg :=
  Msg.mk "system" systemPrompt none none none ::
    (history ++ [Msg.mk "user" currentMessage none none none])

/-- The builder `ContextBuilder.addToolResult`: append one tool-result
message. -/
def addToolResult (messages : List Msg) (toolCallId : String) (toolName : String)
    (result : String) : List Msg :=
  messages ++ [Msg.mk "tool" result none (some toolCallId) (some toolName)]

/-- The builder `ContextBuilder.addAssistantMessage`: append one assistant
message, with `content || ""` for a null content and the tool-call
dictionaries attached only when nonempty. -/
def addAssistantMessage (messages : List Msg) (content : Option String)
    (toolCalls : List ToolCallDict) : List Msg :=
  messages ++ [Msg.mk "assistant" (content.getD "")
    (if toolCalls.isEmpty then none else some toolCalls) none none]

/-- The inner tool-execution loop of one iteration: for each requested call
in order, execute it through the registry and append one tool-result
message. -/
def execToolCalls (tools : ToolRegistry) : List Msg → List ToolCall → List Msg
  | messages, [] => messages
  | messages, tc :: rest =>
    execToolCalls tools
      (addToolResult messages tc.id tc.name (ToolRegistry.execute tools tc.name tc.arguments))
      rest

/-- Result of the bounded provider/tool iteration of one turn: the final
content the loop broke with (`none` when the iteration cap was reached with
the last response still carrying tool calls), the working message list, and
the number of provider calls made. -/
structure LoopResult where
  finalContent : Option String
  messages : List Msg
  providerCalls : Nat

/-- The provider/tool iteration `for (let i = 0; i < maxIterations; i++)` of
`AgentLoop._processMessage`, with the remaining iteration budget as the
first argument. The provider is modelled as a function of the current
message list; since each iteration strictly grows the list, any per-call
stub response sequence is representable. A response carrying tool calls
appends one assistant message recording the calls, then one tool-result
message per call in order; a response without tool calls ends the loop with
its content. -/
def runLoop (provider : List Msg → LLMResponse) (tools : ToolRegistry) :
    Nat → List Msg → Nat → LoopResult
  | 0, messages, calls => LoopResult.mk none messages calls
  | fuel + 1, messages, calls =>
    if (provider messages).hasToolCalls then
      runLoop provider tools fuel
        (execToolCalls tools
          (addAssistantMessage messages (provider messages).content
            ((provider messages).toolCalls.map (fun tc =>
              ToolCallDict.mk tc.id "function" tc.name (jsonStringify (JVal.vobj tc.arguments)))))
          (provider messages).toolCalls)
        (calls + 1)
    else
      LoopResult.mk (provider messages).content messages (calls + 1)

/-- JavaScript truthiness test `!x` on a nullable string: true for null and
for the empty string. -/
def jsFalsyStr : Option String → Bool
  | none => true
  | some s => s == ""

/-- The canned placeholder substituted when the main loop ends a turn with
no final content. -/
def noResponsePlaceholder : String :=
  "I\x27ve completed processing but have no response to give."

/-- The `if (!finalContent) finalContent = placeholder` fallback applied
after the iteration: a null or empty final content is replaced by the given
canned placeholder. -/
def finalAnswer (placeholder : String) (r : LoopResult) : String :=
  if jsFalsyStr r.finalContent then placeholder else r.finalContent.getD ""

/-- The canned placeholder of the system-message variant of the loop. -/
def backgroundTaskPlaceholder : String := "Background task completed."

/-- An inbound message as built by `createInboundMessage`. -/
structure InboundMessage where
  channel : String
  senderId : String
  chatId : String
  content : String
  media : List String
  metadata : JFields
  timestamp : Nat

/-- The derived session key `channel + ":" + chatId`. -/
def InboundMessage.sessionKey (m : InboundMessage) : String :=
  m.channel ++ ":" ++ m.chatId

/-- An outbound message as built by `createOutboundMessage`. -/
structure OutboundMessage where
  channel : String
  chatId : String
  content : String
  replyTo : Option String
  media : List String
  metadata : JFields
  timestamp : Nat

/-- One persisted conversation entry: role, content and the instant it was
recorded. -/
structure SessionEntry where
  role : String
  content : String
  timestamp : Nat

/-- A conversation session owned by the session store. -/
structure Session where
  key : String
  messages : List SessionEntry
  createdAt : Nat
  updatedAt : Nat
  metadata : JFields

/-- The constructor `new Session(key)` at instant `now`. -/
def Session.create (key : String) (now : Nat) : Session :=
  Session.mk key [] now now JFields.nil

/-- The method `Session.addMessage(role, content)` at instant `now`: append
one entry and refresh `updatedAt`. -/
def Session.addMessage (s : Session) (role : String) (content : String) (now : Nat) : Session :=
  Session.mk s.key (s.messages ++ [SessionEntry.mk role content now]) s.createdAt now s.metadata

/-- The method `Session.getHistory(maxMessages)`: the trailing window of at
most `maxMessages` entries, projected to role and content. -/
def Session.getHistory (s : Session) (maxMessages : Nat) : List Msg :=
  let recent :=
    if s.messages.length > maxMessages then s.messages.drop (s.messages.length - maxMessages)
    else s.messages
  recent.map (fun m => Msg.mk m.role m.content none none none)

/-- The outcome of one processed turn: the mutated session (as persisted),
the outbound reply published to the bus, and the number of provider calls
made. -/
structure TurnResult where
  session : Session
  outbound : OutboundMessage
  providerCalls : Nat

/-- The ordinary-channel branch of `AgentLoop._processMessage`: build the
message list from the session history window of 50 and the inbound content,
run the bounded iteration, substitute the canned placeholder for a falsy
final content, persist exactly the user turn and the final answer into the
session, and address the reply to the inbound channel and chat. -/
def processMessage (systemPrompt : String) (now : Nat) (provider : List Msg → LLMResponse)
    (tools : ToolRegistry) (maxIterations : Nat) (session : Session)
    (msg : InboundMessage) : TurnResult :=
  let messages := buildMessages systemPrompt (session.getHistory 50) msg.content
  let result := runLoop provider tools maxIterations messages 0
  let finalContent := finalAnswer noResponsePlaceholder result
  TurnResult.mk
    ((session.addMessage "user" msg.content now).addMessage "assistant" finalContent now)
    (OutboundMessage.mk msg.channel msg.chatId finalContent none [] JFields.nil now)
    result.providerCalls

/-- Character-level `split(":", 2)` helper: everything after the first colon
up to (and excluding) the next colon, mirroring how the JavaScript limit
argument truncates the split result. -/
def takeUntilColon : List Char → List Char
  | [] => []
  | c :: rest => if c = ':' then [] else c :: takeUntilColon rest

/-- Character-level body of `chatId.split(":", 2)`: the part before the
first colon and the part between the first and second colons. -/
def splitLimit2Chars : List Char → List Char × List Char
  | [] => ([], [])
  | c :: rest =>
    if c = ':' then ([], takeUntilColon rest)
    else
      let p := splitLimit2Chars rest
      (c :: p.1, p.2)

/-- The JavaScript `chatId.split(":", 2)` pair, as used when the chat id
contains a colon (so both components are defined). -/
def jsSplitLimit2 (s : String) : String × String :=
  let p := splitLimit2Chars s.data
  (String.mk p.1, String.mk p.2)

/-- The JavaScript `chatId.includes(":")` test. -/
def stringIncludesColon (s : String) : Bool :=
  s.data.contains ':'

/-- Origin recovery of `AgentLoop._processSystemMessage`: a chat id
containing a colon is split as `originChannel:originChatId` (with the
JavaScript limit of 2 dropping anything after a second colon); otherwise the
origin defaults to the `cli` channel with the chat id unchanged. -/
def parseSystemOrigin (chatId : String) : String × String :=
  if stringIncludesColon chatId then jsSplitLimit2 chatId else ("cli", chatId)

/-- The system-channel branch `AgentLoop._processSystemMessage`: recover the
origin from the chat id, run the same bounded iteration, default a falsy
final content to the background placeholder, persist the sender-tagged user
entry and the final answer, and address the reply to the recovered origin.
The session passed in is the one the session store resolved for the
recovered origin key. -/
def processSystemMessage (systemPrompt : String) (now : Nat)
    (provider : List Msg → LLMResponse) (tools : ToolRegistry) (maxIterations : Nat)
    (session : Session) (msg : InboundMessage) : TurnResult :=
  let origin := parseSystemOrigin msg.chatId
  let messages := buildMessages systemPrompt (session.getHistory 50) msg.content
  let result := runLoop provider tools maxIterations messages 0
  let finalContent := finalAnswer backgroundTaskPlaceholder result
  TurnResult.mk
    ((session.addMessage "user" ("[System: " ++ msg.senderId ++ "] " ++ msg.content) now).addMessage
      "assistant" finalContent now)
    (OutboundMessage.mk origin.1 origin.2 finalContent none [] JFields.nil now)
    result.providerCalls

/-- The dispatch at the top of `AgentLoop._processMessage`: messages on the
reserved `system` channel are handled by the system branch, every other
channel by the ordinary branch. -/
def processInbound (systemPrompt : String) (now : Nat) (provider : List Msg → LLMResponse)
    (tools : ToolRegistry) (maxIterations : Nat) (session : Session)
    (msg : InboundMessage) : TurnResult :=
  if msg.channel == "system" then
    processSystemMessage systemPrompt now provider tools maxIterations session msg
  else
    processMessage systemPrompt now provider tools maxIterations session msg

/-- One line of a persisted session file. The JSONL serialization is
abstracted at the record level: `JSON.stringify` emits exactly one nonempty
line per record and `JSON.parse` inverts it, so a file is the list of its
records. The metadata record carries `createdAt` as an optional value
because the load path defaults it when absent. -/
inductive SessionRecord where
  | metadataRec (createdAt : Option Nat) (updatedAt : Nat) (metadata : JFields)
  | messageRec (entry : SessionEntry)

/-- The method `SessionManager.save(session)`: the metadata record first,
then one record per message in order. -/
def SessionManager.save (s : Session) : List SessionRecord :=
  SessionRecord.metadataRec (some s.createdAt) s.updatedAt s.metadata ::
    s.messages.map SessionRecord.messageRec

/-- Body of the record loop in `SessionManager._load(key)`: a metadata
record sets the stored metadata and creation instant (defaulting a missing
`createdAt` to `now`, and leaving `updatedAt` untouched exactly as the
source does); a message record is appended. -/
def SessionManager.loadStep (now : Nat) (sess : Session) (r : SessionRecord) : Session :=
  match r with
  | SessionRecord.metadataRec c _ md =>
    Session.mk sess.key sess.messages (c.getD now) sess.updatedAt md
  | SessionRecord.messageRec m =>
    Session.mk sess.key (sess.messages ++ [m]) sess.createdAt sess.updatedAt sess.metadata

/-- The method `SessionManager._load(key)` applied to the records of an
existing file: fold the records over a fresh session created at instant
`now`. -/
def SessionManager.load (key : String) (now : Nat) (records : List SessionRecord) : Session :=
  records.foldl (SessionManager.loadStep now) (Session.create key now)

/-- State of the `AsyncQueue` primitive: the buffered items and the resolver
callbacks of the suspended consumers in registration order, identified by
abstract waiter ids. -/
structure AsyncQueue (α : Type) where
  items : List α
  waiters : List Nat

/-- Effect of a push: either a waiting consumer was woken and handed the
item, or the item was buffered. -/
inductive PushEffect (α : Type) where
  | delivered (waiter : Nat) (item : α)
  | buffered

/-- The method `AsyncQueue.push(item)`: resolve the earliest-registered
waiter with the item when one exists, otherwise append the item to the
buffer; in both cases the call returns immediately. -/
def AsyncQueue.push {α : Type} (q : AsyncQueue α) (item : α) : AsyncQueue α × PushEffect α :=
  match q.waiters with
  | w :: rest => (AsyncQueue.mk q.items rest, PushEffect.delivered w item)
  | [] => (AsyncQueue.mk (q.items ++ [item]) [], PushEffect.buffered)

/-- Immediate outcome of a pop: a buffered item, or suspension of the caller
as a newly registered waiter, with a timer armed exactly when the requested
timeout is positive. -/
inductive PopOutcome (α : Type) where
  | got (item : α)
  | suspended (waiter : Nat) (timerArmed : Bool)

/-- The method `AsyncQueue.pop(timeoutMs)`: take the oldest buffered item
when one exists, otherwise register the caller at the end of the waiter list
and arm a rejection timer when the timeout is positive. `newWaiter` is the
fresh id of the suspended caller. -/
def AsyncQueue.pop {α : Type} (q : AsyncQueue α) (timeoutMs : Int) (newWaiter : Nat) :
    AsyncQueue α × PopOutcome α :=
  match q.items with
  | x :: rest => (AsyncQueue.mk rest q.waiters, PopOutcome.got x)
  | [] =>
    (AsyncQueue.mk [] (q.waiters ++ [newWaiter]),
      PopOutcome.suspended newWaiter (decide (0 < timeoutMs)))

/-- The timer callback of `AsyncQueue.pop`: if the waiter is still
registered, remove it (the `indexOf`/`splice` pair removes its first
occurrence) and reject its promise with the `Timeout` error; the returned
flag records whether the rejection happened. -/
def AsyncQueue.timerFire {α : Type} (q : AsyncQueue α) (w : Nat) : AsyncQueue α × Bool :=
  if q.waiters.contains w then (AsyncQueue.mk q.items (q.waiters.erase w), true)
  else (q, false)

/-- The message of the error a timed-out pop rejects with. -/
def timeoutErrorMessage : String := "Timeout"

/-- The error filter of `AgentLoop.run`: a caught error is logged as a loop
fault exactly when its message differs from `Timeout`; the timeout itself is
treated as idle polling. -/
def agentRunLogsError (errMsg : String) : Bool :=
  errMsg != "Timeout"

/-- The message bus: two independent queues. -/
structure MessageBus where
  inbound : AsyncQueue InboundMessage
  outbound : AsyncQueue OutboundMessage

/-- The method `MessageBus.publishInbound(msg)`. -/
def MessageBus.publishInbound (bus : MessageBus) (msg : InboundMessage) :
    MessageBus × PushEffect InboundMessage :=
  let p := bus.inbound.push msg
  (MessageBus.mk p.1 bus.outbound, p.2)

/-- The method `MessageBus.publishOutbound(msg)`. -/
def MessageBus.publishOutbound (bus : MessageBus) (msg : OutboundMessage) :
    MessageBus × PushEffect OutboundMessage :=
  let p := bus.outbound.push msg
  (MessageBus.mk bus.inbound p.1, p.2)

/-- Outcome of one transport attempt of `OpenAIProvider.chat` against one
model: a parsed response, or a request failure whose `timeoutClass` flag
records whether the error code was `ECONNABORTED` or `ETIMEDOUT`. The
request payload (messages, tools, token and temperature limits) is passed
unchanged to every attempt in the source, so the transport is a function of
the model alone. -/
inductive TransportOutcome where
  | success (resp : LLMResponse)
  | failure (timeoutClass : Bool) (errMsg : String)

/-- The terminal error response `createLLMResponse` built in the catch
block of `OpenAIProvider.chat`. -/
def llmErrorResponse (errMsg : String) : LLMResponse :=
  LLMResponse.mk (some ("Error calling LLM: " ++ errMsg)) [] "error" []

/-- The method `OpenAIProvider.chat` with its recursive fallback handling,
bounded by an explicit recursion budget; `none` means the call has not
returned within that budget (the source recursion has no bound at all).
On a timeout-class failure the source iterates the fallback list, skipping
entries equal to the current model, and re-enters the full `chat` on the
first remaining entry. Because `chat` traps every error and returns a
response instead of rejecting, the `catch`/`continue` arm of that loop is
unreachable: the first non-skipped fallback determines the result, and the
terminal error response is reached only when every fallback was skipped.
A failure that is not timeout-class returns the terminal error response
directly. -/
def providerChat (transport : String → TransportOutcome) (fallbackModels : List String) :
    Nat → String → Option LLMResponse
  | 0, _ => none
  | budget + 1, useModel =>
    match transport useModel with
    | TransportOutcome.success resp => some resp
    | TransportOutcome.failure timeoutClass errMsg =>
      if timeoutClass then
        match (if fallbackModels.length > 0 then fallbackModels
               else ["openai/gpt-3.5-turbo"]).find? (fun fb => fb != useModel) with
        | some fb => providerChat transport fallbackModels budget fb
        | none => some (llmErrorResponse errMsg)
      else some (llmErrorResponse errMsg)

/-- The announcement body template of `SubagentManager._announceResult`. -/
def announceContent (label task result statusText : String) : String :=
  "[Subagent \x27" ++ label ++ "\x27 " ++ statusText ++ "]\n\nTask: " ++ task ++
    "\n\nResult:\n" ++ result ++
    "\n\nSummarize this naturally for the user. Keep it brief (1-2 sentences). " ++
    "Do not mention technical details like \"subagent\" or task IDs."

/-- The synthetic inbound message `SubagentManager._announceResult` publishes
to the bus when a subagent completes (`statusOk = true`) or fails. -/
def announceResult (label task result : String) (origin : String × String)
    (statusOk : Bool) (now : Nat) : InboundMessage :=
  InboundMessage.mk "system" "subagent" (origin.1 ++ ":" ++ origin.2)
    (announceContent label task result
      (if statusOk then "completed successfully" else "failed"))
    [] JFields.nil now

/-- An empty tool registry, used by concrete instantiations. -/
def emptyRegistry : ToolRegistry := ToolRegistry.mk []

/-- A stub tool-call request used by concrete instantiations. -/
def stubToolCall : ToolCall := ToolCall.mk "tc-1" "read_file" JFields.nil

/-- A stub provider whose every response carries one tool call. -/
def alwaysToolsProvider : List Msg → LLMResponse :=
  fun _ => LLMResponse.mk none [stubToolCall] "tool_calls" []

/-- A stub provider that immediately answers with plain content. -/
def stubProvider : List Msg → LLMResponse :=
  fun _ => LLMResponse.mk (some "ok") [] "stop" []

/-- A stub provider whose terminal response carries the empty string. -/
def emptyContentProvider : List Msg → LLMResponse :=
  fun _ => LLMResponse.mk (some "") [] "stop" []

/-- A sample ordinary inbound message. -/
def sampleInbound : InboundMessage :=
  InboundMessage.mk "cli" "user" "direct" "hi" [] JFields.nil 0

/-- A sample subagent announcement arriving on the system channel. -/
def sampleSystemInbound : InboundMessage :=
  InboundMessage.mk "system" "subagent" "cli:direct" "hello" [] JFields.nil 0

/-- A sample registered tool requiring a `path` parameter. -/
def readFileTool : Tool :=
  Tool.mk "read_file" "Read a file"
    (Schema.mk (some "object") none ["path"] SchemaProps.nil)
    (fun _ => Except.ok "contents")

/-- A sample registered tool whose execution throws. -/
def throwingTool : Tool :=
  Tool.mk "exec" "Run a command"
    (Schema.mk (some "object") none [] SchemaProps.nil)
    (fun _ => Except.error "boom")

/-- A sample successful fallback response for the provider scenarios. -/
def c6FallbackOk : LLMResponse := LLMResponse.mk (some "fallback answer") [] "stop" []

/-- Transport scenario: the primary model times out, the first fallback
fails with a non-timeout transport error, the second fallback succeeds. -/
def c6Transport : String → TransportOutcome := fun m =>
  if m == "primary" then TransportOutcome.failure true "timeout of 30000ms exceeded"
  else if m == "fb-one" then TransportOutcome.failure false "boom"
  else if m == "fb-two" then TransportOutcome.success c6FallbackOk
  else TransportOutcome.failure false "unknown model"

/-- Transport scenario: every model times out on every attempt. -/
def c6AllTimeout : String → TransportOutcome :=
  fun _ => TransportOutcome.failure true "timeout of 30000ms exceeded"

/-- Unfolding of the tool-execution loop of one iteration: it appends
exactly one tool-result message per requested call, in the order of the
request list. -/
theorem execToolCalls_eq (tools : ToolRegistry) :
    ∀ (tcs : List ToolCall) (messages : List Msg),
      execToolCalls tools messages tcs =
        messages ++ tcs.map (fun tc =>
          Msg.mk "tool" (ToolRegistry.execute tools tc.name tc.arguments)
            none (some tc.id) (some tc.name)) := by
  intro tcs
  induction tcs with
  | nil => intro m; simp [execToolCalls]
  | cons tc rest ih =>
    intro m
    simp [execToolCalls, addToolResult, ih]

/-- The iteration makes at most one provider call per unit of remaining
budget. -/
theorem runLoop_calls_le (provider : List Msg → LLMResponse) (tools : ToolRegistry)
    (fuel : Nat) : ∀ (messages : List Msg) (calls : Nat),
    (runLoop provider tools fuel messages calls).providerCalls ≤ calls + fuel := by
  induction fuel with
  | zero => intro messages calls; simp [runLoop]
  | succ n ih =>
    intro messages calls
    rw [runLoop]
    cases h : (provider messages).hasToolCalls with
    | true =>
      simp only [h, if_true]
      have := ih (execToolCalls tools
        (addAssistantMessage messages (provider messages).content
          ((provider messages).toolCalls.map (fun tc =>
            ToolCallDict.mk tc.id "function" tc.name (jsonStringify (JVal.vobj tc.arguments)))))
        (provider messages).toolCalls) (calls + 1)
      omega
    | false =>
      rw [if_neg (by simp [h])]
      show calls + 1 ≤ calls + (n + 1)
      omega

/-- Against a provider whose every response carries tool calls, the
iteration spends its whole budget, makes exactly one provider call per unit
of budget, and ends with no final content. -/
theorem runLoop_allTools (provider : List Msg → LLMResponse) (tools : ToolRegistry)
    (hAll : ∀ ms, (provider ms).hasToolCalls = true) (fuel : Nat) :
    ∀ (messages : List Msg) (calls : Nat),
      (runLoop provider tools fuel messages calls).finalContent = none ∧
      (runLoop provider tools fuel messages calls).providerCalls = calls + fuel := by
  induction fuel with
  | zero => intro messages calls; simp [runLoop]
  | succ n ih =>
    intro messages calls
    rw [runLoop]
    simp only [hAll messages, if_true]
    refine ⟨(ih _ _).1, ?_⟩
    rw [(ih _ _).2]
    omega

/-- Claim C1: for every inbound message, the provider/tool iteration of the
Agent Loop performs at most `maxIterations` provider calls (the iteration is
a bounded loop, so a turn always terminates); in particular, with
`maxIterations = 1` and a provider whose every response carries tool calls,
exactly one provider call is made and the final answer of the turn is the
canned placeholder text rather than a failure or an unbounded loop. -/
theorem agent_loop_iteration_cap (systemPrompt : String) (now : Nat)
    (provider : List Msg → LLMResponse) (tools : ToolRegistry)
    (session : Session) (msg : InboundMessage)
    (hAll : ∀ ms, (provider ms).hasToolCalls = true) :
    (∀ (p : List Msg → LLMResponse) (maxIterations : Nat),
      (processMessage systemPrompt now p tools maxIterations session msg).providerCalls ≤
        maxIterations) ∧
    (processMessage systemPrompt now provider tools 1 session msg).providerCalls = 1 ∧
    (processMessage systemPrompt now provider tools 1 session msg).outbound.content =
      noResponsePlaceholder := by
  refine ⟨fun p maxIterations => ?_, ?_, ?_⟩
  · have := runLoop_calls_le p tools maxIterations
      (buildMessages systemPrompt (session.getHistory 50) msg.content) 0
    simpa [processMessage] using this
  · have h := runLoop_allTools provider tools hAll 1
      (buildMessages systemPrompt (session.getHistory 50) msg.content) 0
    simp [processMessage, h.2]
  · have h := runLoop_allTools provider tools hAll 1
      (buildMessages systemPrompt (session.getHistory 50) msg.content) 0
    simp [processMessage, finalAnswer, h.1, jsFalsyStr]

/-- Witness for C1 at a concrete provider that always requests one tool
call. -/
theorem agent_loop_iteration_cap_witness :
    (∀ ms, (alwaysToolsProvider ms).hasToolCalls = true) ∧
    ((∀ (p : List Msg → LLMResponse) (maxIterations : Nat),
      (processMessage "sys" 0 p emptyRegistry maxIterations (Session.create "cli:direct" 0)
        sampleInbound).providerCalls ≤ maxIterations) ∧
    (processMessage "sys" 0 alwaysToolsProvider emptyRegistry 1 (Session.create "cli:direct" 0)
      sampleInbound).providerCalls = 1 ∧
    (processMessage "sys" 0 alwaysToolsProvider emptyRegistry 1 (Session.create "cli:direct" 0)
      sampleInbound).outbound.content = noResponsePlaceholder) :=
  ⟨fun _ => rfl,
    agent_loop_iteration_cap "sys" 0 alwaysToolsProvider emptyRegistry
      (Session.create "cli:direct" 0) sampleInbound (fun _ => rfl)⟩

/-- Claim C2: when the provider response carries tool calls, one iteration
of the loop appends one assistant message recording the requested calls and
then exactly one tool-result message per call, executed through the registry
in exactly the order the response lists them, before re-entering the loop
with one more provider call consumed. -/
theorem tool_calls_executed_in_order (provider : List Msg → LLMResponse)
    (tools : ToolRegistry) (fuel : Nat) (messages : List Msg) (calls : Nat)
    (h : (provider messages).hasToolCalls = true) :
    runLoop provider tools (fuel + 1) messages calls =
      runLoop provider tools fuel
        (messages ++
          [Msg.mk "assistant" ((provider messages).content.getD "")
            (some ((provider messages).toolCalls.map (fun tc =>
              ToolCallDict.mk tc.id "function" tc.name
                (jsonStringify (JVal.vobj tc.arguments))))) none none] ++
          (provider messages).toolCalls.map (fun tc =>
            Msg.mk "tool" (ToolRegistry.execute tools tc.name tc.arguments)
              none (some tc.id) (some tc.name)))
        (calls + 1) := by
  have htc : ((provider messages).toolCalls.map (fun tc =>
      ToolCallDict.mk tc.id "function" tc.name
        (jsonStringify (JVal.vobj tc.arguments)))).isEmpty = false := by
    cases hl : (provider messages).toolCalls with
    | nil => simp [LLMResponse.hasToolCalls, hl] at h
    | cons a as => simp [hl]
  rw [runLoop]
  simp only [h, if_true]
  rw [execToolCalls_eq]
  simp [addAssistantMessage, htc]

/-- Witness for C2 at a concrete response carrying one tool call. -/
theorem tool_calls_executed_in_order_witness :
    (alwaysToolsProvider [Msg.mk "user" "hi" none none none]).hasToolCalls = true ∧
    runLoop alwaysToolsProvider emptyRegistry 1 [Msg.mk "user" "hi" none none none] 0 =
      runLoop alwaysToolsProvider emptyRegistry 0
        ([Msg.mk "user" "hi" none none none] ++
          [Msg.mk "assistant"
            ((alwaysToolsProvider [Msg.mk "user" "hi" none none none]).content.getD "")
            (some ((alwaysToolsProvider [Msg.mk "user" "hi" none none none]).toolCalls.map
              (fun tc => ToolCallDict.mk tc.id "function" tc.name
                (jsonStringify (JVal.vobj tc.arguments))))) none none] ++
          (alwaysToolsProvider [Msg.mk "user" "hi" none none none]).toolCalls.map (fun tc =>
            Msg.mk "tool" (ToolRegistry.execute emptyRegistry tc.name tc.arguments)
              none (some tc.id) (some tc.name)))
        (0 + 1) :=
  ⟨rfl,
    tool_calls_executed_in_order alwaysToolsProvider emptyRegistry 0
      [Msg.mk "user" "hi" none none none] 0 rfl⟩

/-- Claim C10: a provider response with no tool calls whose content is null
or empty does not become the final answer; the fixed placeholder text is
substituted, persisted as the assistant session entry and published as the
outbound reply. -/
theorem empty_final_content_replaced (systemPrompt : String) (now : Nat)
    (provider : List Msg → LLMResponse) (tools : ToolRegistry) (maxIterations : Nat)
    (session : Session) (msg : InboundMessage)
    (hIter : 0 < maxIterations)
    (hNoTools : (provider (buildMessages systemPrompt (session.getHistory 50)
      msg.content)).hasToolCalls = false)
    (hFalsy : jsFalsyStr (provider (buildMessages systemPrompt (session.getHistory 50)
      msg.content)).content = true) :
    (processMessage systemPrompt now provider tools maxIterations session msg).outbound.content =
      noResponsePlaceholder ∧
    (processMessage systemPrompt now provider tools maxIterations session msg).session.messages =
      session.messages ++
        [SessionEntry.mk "user" msg.content now,
         SessionEntry.mk "assistant" noResponsePlaceholder now] := by
  obtain ⟨k, rfl⟩ : ∃ k, maxIterations = k + 1 := ⟨maxIterations - 1, by omega⟩
  have hstep : runLoop provider tools (k + 1)
      (buildMessages systemPrompt (session.getHistory 50) msg.content) 0 =
      LoopResult.mk
        (provider (buildMessages systemPrompt (session.getHistory 50) msg.content)).content
        (buildMessages systemPrompt (session.getHistory 50) msg.content) 1 := by
    rw [runLoop]
    rw [if_neg (by simp [hNoTools])]
  constructor
  · simp [processMessage, hstep, finalAnswer, hFalsy]
  · simp [processMessage, hstep, finalAnswer, hFalsy, Session.addMessage]

/-- Witness for C10 at a concrete provider answering with the empty
string. -/
theorem empty_final_content_replaced_witness :
    0 < 1 ∧
    (emptyContentProvider (buildMessages "sys" ((Session.create "cli:direct" 0).getHistory 50)
      sampleInbound.content)).hasToolCalls = false ∧
    jsFalsyStr (emptyContentProvider (buildMessages "sys"
      ((Session.create "cli:direct" 0).getHistory 50) sampleInbound.content)).content = true ∧
    ((processMessage "sys" 7 emptyContentProvider emptyRegistry 1 (Session.create "cli:direct" 0)
        sampleInbound).outbound.content = noResponsePlaceholder ∧
     (processMessage "sys" 7 emptyContentProvider emptyRegistry 1 (Session.create "cli:direct" 0)
        sampleInbound).session.messages =
      (Session.create "cli:direct" 0).messages ++
        [SessionEntry.mk "user" sampleInbound.content 7,
         SessionEntry.mk "assistant" noResponsePlaceholder 7]) :=
  ⟨by decide, rfl, rfl,
    empty_final_content_replaced "sys" 7 emptyContentProvider emptyRegistry 1
      (Session.create "cli:direct" 0) sampleInbound (by decide) rfl rfl⟩

/-- Unfolding of the session mutation of one processed turn: on either
branch of the dispatch, exactly a user entry and an assistant entry are
appended, with the user entry carrying the inbound content (sender-tagged on
the system channel) and the assistant entry carrying the placeholder-patched
final answer. -/
theorem processInbound_messages (systemPrompt : String) (now : Nat)
    (provider : List Msg → LLMResponse) (tools : ToolRegistry) (maxIterations : Nat)
    (session : Session) (msg : InboundMessage) :
    (processInbound systemPrompt now provider tools maxIterations session msg).session.messages =
      session.messages ++
        [SessionEntry.mk "user"
          (if msg.channel == "system" then "[System: " ++ msg.senderId ++ "] " ++ msg.content
           else msg.content) now,
         SessionEntry.mk "assistant"
          (finalAnswer
            (if msg.channel == "system" then backgroundTaskPlaceholder else noResponsePlaceholder)
            (runLoop provider tools maxIterations
              (buildMessages systemPrompt (session.getHistory 50) msg.content) 0)) now] := by
  unfold processInbound processMessage processSystemMessage
  by_cases h : (msg.channel == "system") = true
  · simp [h, Session.addMessage]
  · simp [h, Session.addMessage]

/-- Counterexample to C3 as stated: a system-channel inbound message is a
processed turn, yet its persisted user-role entry is the sender-tagged text,
not the inbound content verbatim. -/
theorem system_turn_user_entry_not_inbound_content :
    (processInbound "sys" 5 stubProvider emptyRegistry 20 (Session.create "cli:direct" 0)
      sampleSystemInbound).session.messages =
      [SessionEntry.mk "user" "[System: subagent] hello" 5,
       SessionEntry.mk "assistant" "ok" 5] ∧
    sampleSystemInbound.content = "hello" ∧
    "[System: subagent] hello" ≠ "hello" :=
  ⟨rfl, rfl, by decide⟩

/-- Claim C3 (amended): every processed turn appends exactly two entries to
the resolved session — a user-role entry carrying the inbound content
(prefixed with the `[System: senderId] ` tag when the message arrived on the
reserved system channel) and an assistant-role entry carrying the final
answer — regardless of how many tool calls occurred, with tool traffic never
persisted; replaying an identical inbound message against an empty session
yields two independently appended turns with no deduplication. -/
theorem turn_appends_exactly_two (systemPrompt : String) (now : Nat)
    (provider : List Msg → LLMResponse) (tools : ToolRegistry) (maxIterations : Nat)
    (session : Session) (msg : InboundMessage) :
    (∃ fc,
      (processInbound systemPrompt now provider tools maxIterations session msg).session.messages =
        session.messages ++
          [SessionEntry.mk "user"
            (if msg.channel == "system" then "[System: " ++ msg.senderId ++ "] " ++ msg.content
             else msg.content) now,
           SessionEntry.mk "assistant" fc now]) ∧
    (∀ (key : String) (createdAt : Nat), ∃ fc1 fc2,
      (processInbound systemPrompt now provider tools maxIterations
        (processInbound systemPrompt now provider tools maxIterations
          (Session.create key createdAt) msg).session msg).session.messages =
        [SessionEntry.mk "user"
          (if msg.channel == "system" then "[System: " ++ msg.senderId ++ "] " ++ msg.content
           else msg.content) now,
         SessionEntry.mk "assistant" fc1 now,
         SessionEntry.mk "user"
          (if msg.channel == "system" then "[System: " ++ msg.senderId ++ "] " ++ msg.content
           else msg.content) now,
         SessionEntry.mk "assistant" fc2 now]) := by
  constructor
  · exact ⟨_, processInbound_messages systemPrompt now provider tools maxIterations session msg⟩
  · intro key createdAt
    refine ⟨finalAnswer
        (if msg.channel == "system" then backgroundTaskPlaceholder else noResponsePlaceholder)
        (runLoop provider tools maxIterations
          (buildMessages systemPrompt ((Session.create key createdAt).getHistory 50)
            msg.content) 0),
      finalAnswer
        (if msg.channel == "system" then backgroundTaskPlaceholder else noResponsePlaceholder)
        (runLoop provider tools maxIterations
          (buildMessages systemPrompt
            ((processInbound systemPrompt now provider tools maxIterations
              (Session.create key createdAt) msg).session.getHistory 50) msg.content) 0), ?_⟩
    rw [processInbound_messages, processInbound_messages]
    simp [Session.create]

/-- Unfolding of the validator on a schema node. -/
theorem jvalidate_mk (val : JVal) (ty : Option String) (en : Option JValList)
    (req : List String) (props : SchemaProps) (path : String) :
    jvalidate val (Schema.mk ty en req props) path =
      typeErrors val ty (if path == "" then "parameter" else path) ++
      enumErrors val en (if path == "" then "parameter" else path) ++
      requiredErrors val ty req path ++
      (if ty == some "object" && jtypeof val == "object" then jvalidateProps val props path
       else []) := rfl

/-- A required key absent from the argument map contributes its
`missing required` message to the validator output. -/
theorem missing_required_mem (en : Option JValList) (req : List String) (props : SchemaProps)
    (params : JFields) (k : String) (hk : k ∈ req) (hm : JFields.hasKey params k = false) :
    ("missing required " ++ k) ∈
      jvalidate (JVal.vobj params) (Schema.mk (some "object") en req props) "" := by
  rw [jvalidate_mk]
  simp only [List.mem_append]
  refine Or.inl (Or.inr ?_)
  unfold requiredErrors
  rw [if_pos (by rfl)]
  rw [List.mem_filterMap]
  exact ⟨k, hk, by simp [JVal.hasKey, hm]⟩

/-- The validator output of a tool on an argument map missing a required key
contains the corresponding `missing required` message. -/
theorem validateParams_missing_required (t : Tool) (params : JFields) (k : String)
    (hk : k ∈ t.parameters.required) (hm : JFields.hasKey params k = false) :
    ("missing required " ++ k) ∈ Tool.validateParams t params := by
  unfold Tool.validateParams
  cases h : t.parameters with
  | mk ty en req props =>
    rw [h] at hk
    exact missing_required_mem en req props params k hk hm

/-- Claim C4: for every registered tool and every argument map missing a
required key, `ToolRegistry.execute` returns the textual validation error —
which names the missing key and lists all violations found — and the tool
execution function is never invoked: the result is the same for every
execution function the tool could carry. -/
theorem registry_rejects_missing_required (reg : ToolRegistry) (name : String) (t : Tool)
    (params : JFields) (k : String)
    (hGet : ToolRegistry.get reg name = some t)
    (hReq : k ∈ t.parameters.required)
    (hMiss : JFields.hasKey params k = false) :
    ("missing required " ++ k) ∈ Tool.validateParams t params ∧
    ToolRegistry.execute reg name params =
      "Error: Invalid parameters for tool \x27" ++ name ++ "\x27: " ++
        String.intercalate "; " (Tool.validateParams t params) ∧
    (∀ g : JFields → Except String String,
      ToolRegistry.execute (ToolRegistry.mk [Tool.mk t.name t.description t.parameters g])
        name params =
      "Error: Invalid parameters for tool \x27" ++ name ++ "\x27: " ++
        String.intercalate "; " (Tool.validateParams t params)) := by
  have hmem := validateParams_missing_required t params k hReq hMiss
  have hlen : (Tool.validateParams t params).length > 0 :=
    List.length_pos.2 (List.ne_nil_of_mem hmem)
  have hname : (t.name == name) = true := by
    have hGet2 := hGet
    unfold ToolRegistry.get at hGet2
    have hpa := List.find?_some hGet2
    exact hpa
  refine ⟨hmem, ?_, ?_⟩
  · unfold ToolRegistry.execute
    rw [hGet]
    exact if_pos hlen
  · intro g
    unfold ToolRegistry.execute ToolRegistry.get
    have hfind : List.find? (fun t2 => t2.name == name)
        [Tool.mk t.name t.description t.parameters g] =
        some (Tool.mk t.name t.description t.parameters g) := by
      simp [List.find?, hname]
    rw [hfind]
    exact if_pos hlen

/-- Witness for C4 at a concrete tool requiring `path` and an empty
argument map. -/
theorem registry_rejects_missing_required_witness :
    ToolRegistry.get (ToolRegistry.mk [readFileTool]) "read_file" = some readFileTool ∧
    "path" ∈ readFileTool.parameters.required ∧
    JFields.hasKey JFields.nil "path" = false ∧
    (("missing required " ++ "path") ∈ Tool.validateParams readFileTool JFields.nil ∧
     ToolRegistry.execute (ToolRegistry.mk [readFileTool]) "read_file" JFields.nil =
       "Error: Invalid parameters for tool \x27" ++ "read_file" ++ "\x27: " ++
         String.intercalate "; " (Tool.validateParams readFileTool JFields.nil) ∧
     (∀ g : JFields → Except String String,
       ToolRegistry.execute
         (ToolRegistry.mk [Tool.mk readFileTool.name readFileTool.description
           readFileTool.parameters g]) "read_file" JFields.nil =
       "Error: Invalid parameters for tool \x27" ++ "read_file" ++ "\x27: " ++
         String.intercalate "; " (Tool.validateParams readFileTool JFields.nil))) :=
  ⟨rfl, by decide, rfl,
    registry_rejects_missing_required (ToolRegistry.mk [readFileTool]) "read_file"
      readFileTool JFields.nil "path" rfl (by decide) rfl⟩

/-- Claim C5: a registered tool whose execution throws with message `m` does
not propagate the exception through the registry: when the arguments pass
validation so that the execution function is actually invoked,
`ToolRegistry.execute` returns the text `Error executing <name>: <m>` (the
registry result is a total function into strings, so no call raises out of
the registry boundary). -/
theorem registry_catches_tool_errors (reg : ToolRegistry) (name : String) (t : Tool)
    (params : JFields) (m : String)
    (hGet : ToolRegistry.get reg name = some t)
    (hValid : Tool.validateParams t params = [])
    (hThrow : t.execute params = Except.error m) :
    ToolRegistry.execute reg name params = "Error executing " ++ name ++ ": " ++ m := by
  unfold ToolRegistry.execute
  rw [hGet]
  simp [hValid, hThrow]

/-- Witness for C5 at a concrete tool that throws `boom`. -/
theorem registry_catches_tool_errors_witness :
    ToolRegistry.get (ToolRegistry.mk [throwingTool]) "exec" = some throwingTool ∧
    Tool.validateParams throwingTool JFields.nil = [] ∧
    throwingTool.execute JFields.nil = Except.error "boom" ∧
    ToolRegistry.execute (ToolRegistry.mk [throwingTool]) "exec" JFields.nil =
      "Error executing " ++ "exec" ++ ": " ++ "boom" :=
  ⟨rfl, rfl, rfl,
    registry_catches_tool_errors (ToolRegistry.mk [throwingTool]) "exec" throwingTool
      JFields.nil "boom" rfl rfl rfl⟩

/-- With two distinct fallback models whose requests all time out, the
source recursion alternates between the two fallbacks forever: no recursion
budget suffices for either to return. -/
theorem c6_allTimeout_pair : ∀ budget : Nat,
    providerChat c6AllTimeout ["fb-one", "fb-two"] budget "fb-one" = none ∧
    providerChat c6AllTimeout ["fb-one", "fb-two"] budget "fb-two" = none := by
  intro budget
  induction budget with
  | zero => exact ⟨rfl, rfl⟩
  | succ n ih => exact ⟨ih.2, ih.1⟩

/-- Claim C6 (code bug): on a timeout of the primary model, the fallback
loop does not try each configured fallback in order returning the first
success. Because the nested `chat` call never rejects, the `catch` arm that
would advance to the next fallback is unreachable: here the first fallback
fails with a non-timeout error `boom` and the provider returns that error
response even though the second fallback would succeed; and when both
fallbacks keep timing out, the recursion alternates between them and never
returns the terminal error response at all. -/
theorem provider_fallback_divergence :
    providerChat c6Transport ["fb-one", "fb-two"] 10 "primary" =
      some (llmErrorResponse "boom") ∧
    (llmErrorResponse "boom").finishReason = "error" ∧
    (llmErrorResponse "boom").content = some ("Error calling LLM: " ++ "boom") ∧
    c6Transport "fb-two" = TransportOutcome.success c6FallbackOk ∧
    c6FallbackOk.finishReason = "stop" ∧
    (∀ budget : Nat,
      providerChat c6AllTimeout ["fb-one", "fb-two"] budget "primary" = none) := by
  refine ⟨rfl, rfl, rfl, rfl, rfl, fun budget => ?_⟩
  cases budget with
  | zero => rfl
  | succ n => exact (c6_allTimeout_pair n).1

/-- Claim C7: `push` never blocks and never drops the item — it either hands
the item to the earliest-registered waiter (waking exactly that one waiter)
or appends it to the buffer; `pop` returns buffered items in FIFO push
order; `pop` on an empty queue registers the caller at the end of the waiter
list and arms the rejection timer exactly when the timeout is positive; the
fired timer rejects with the `Timeout` error exactly when the waiter is
still registered; and the agent loop treats the `Timeout` message as benign
idling rather than a fault to log. -/
theorem bus_queue_contract {α : Type} :
    (∀ (items : List α) (w : Nat) (rest : List Nat) (item : α),
      AsyncQueue.push (AsyncQueue.mk items (w :: rest)) item =
        (AsyncQueue.mk items rest, PushEffect.delivered w item)) ∧
    (∀ (items : List α) (item : α),
      AsyncQueue.push (AsyncQueue.mk items []) item =
        (AsyncQueue.mk (items ++ [item]) [], PushEffect.buffered)) ∧
    (∀ (x : α) (rest : List α) (waiters : List Nat) (t : Int) (wid : Nat),
      AsyncQueue.pop (AsyncQueue.mk (x :: rest) waiters) t wid =
        (AsyncQueue.mk rest waiters, PopOutcome.got x)) ∧
    (∀ (a b : α) (t : Int) (w1 w2 : Nat),
      (((AsyncQueue.mk [] []).push a).1.push b).1.pop t w1 =
        (AsyncQueue.mk [b] [], PopOutcome.got a) ∧
      ((((AsyncQueue.mk [] []).push a).1.push b).1.pop t w1).1.pop t w2 =
        (AsyncQueue.mk [] [], PopOutcome.got b)) ∧
    (∀ (waiters : List Nat) (t : Int) (wid : Nat),
      AsyncQueue.pop (AsyncQueue.mk ([] : List α) waiters) t wid =
        (AsyncQueue.mk [] (waiters ++ [wid]), PopOutcome.suspended wid (decide (0 < t)))) ∧
    (∀ (q : AsyncQueue α) (w : Nat),
      AsyncQueue.timerFire q w =
        (AsyncQueue.mk q.items (q.waiters.erase w), q.waiters.contains w)) ∧
    agentRunLogsError timeoutErrorMessage = false := by
  refine ⟨fun items w rest item => rfl, fun items item => rfl, fun x rest waiters t wid => rfl,
    fun a b t w1 w2 => ⟨rfl, rfl⟩, fun waiters t wid => rfl, fun q w => ?_, rfl⟩
  unfold AsyncQueue.timerFire
  cases h : q.waiters.contains w with
  | true => simp [h]
  | false =>
    have hq : q.waiters.erase w = q.waiters := by
      refine List.erase_of_not_mem ?_
      simpa [List.contains, List.elem_iff] using h
    simp [h, hq]

/-- Folding message records appends the corresponding entries in order. -/
theorem load_messageRecs (now : Nat) : ∀ (msgs : List SessionEntry) (sess : Session),
    List.foldl (SessionManager.loadStep now) sess (msgs.map SessionRecord.messageRec) =
      Session.mk sess.key (sess.messages ++ msgs) sess.createdAt sess.updatedAt sess.metadata := by
  intro msgs
  induction msgs with
  | nil =>
    intro sess
    simp only [List.map_nil, List.foldl_nil, List.append_nil]
  | cons m rest ih =>
    intro sess
    simp only [List.map_cons, List.foldl_cons]
    rw [ih]
    simp [SessionManager.loadStep, List.append_assoc]

/-- Claim C8: saving a session and loading the persisted records back yields
a session with the identical ordered message list (roles, contents, order
and recorded instants) and the identical creation instant. -/
theorem session_save_load_roundtrip (s : Session) (now : Nat) :
    (SessionManager.load s.key now (SessionManager.save s)).messages = s.messages ∧
    (SessionManager.load s.key now (SessionManager.save s)).createdAt = s.createdAt := by
  unfold SessionManager.save SessionManager.load
  rw [List.foldl_cons]
  have hmeta : SessionManager.loadStep now (Session.create s.key now)
      (SessionRecord.metadataRec (some s.createdAt) s.updatedAt s.metadata) =
      Session.mk s.key [] s.createdAt now s.metadata := rfl
  rw [hmeta, load_messageRecs]
  exact ⟨by simp, rfl⟩

/-- A colon-free character list passes through the limit-2 tail scan
unchanged. -/
theorem takeUntilColon_no_colon : ∀ cs : List Char, ':' ∉ cs → takeUntilColon cs = cs := by
  intro cs
  induction cs with
  | nil => intro _; rfl
  | cons c rest ih =>
    intro h
    have hc : ¬(c = ':') := fun hc => h (by rw [hc]; exact List.mem_cons_self _ _)
    have hr : ':' ∉ rest := fun hr => h (List.mem_cons_of_mem _ hr)
    unfold takeUntilColon
    rw [if_neg hc, ih hr]

/-- Splitting `a ++ ":" ++ b` with limit 2 recovers `a` and `b` when neither
contains a colon. -/
theorem splitLimit2Chars_append (b : List Char) (hb : ':' ∉ b) :
    ∀ a : List Char, ':' ∉ a → splitLimit2Chars (a ++ ':' :: b) = (a, b) := by
  intro a
  induction a with
  | nil =>
    intro _
    show splitLimit2Chars (':' :: b) = ([], b)
    unfold splitLimit2Chars
    rw [if_pos rfl, takeUntilColon_no_colon b hb]
  | cons c rest ih =>
    intro h
    have hc : ¬(c = ':') := fun hc => h (by rw [hc]; exact List.mem_cons_self _ _)
    have hr : ':' ∉ rest := fun hr => h (List.mem_cons_of_mem _ hr)
    show splitLimit2Chars (c :: (rest ++ ':' :: b)) = (c :: rest, b)
    unfold splitLimit2Chars
    rw [if_neg hc]
    simp [ih hr]

/-- The origin parse of the system branch inverts the announce encoding when
neither origin component contains a colon. -/
theorem parseSystemOrigin_roundtrip (oc ocid : String)
    (h1 : stringIncludesColon oc = false) (h2 : stringIncludesColon ocid = false) :
    parseSystemOrigin (oc ++ ":" ++ ocid) = (oc, ocid) := by
  have hoc : ':' ∉ oc.data := by
    simpa [stringIncludesColon, List.contains, List.elem_iff] using h1
  have hocid : ':' ∉ ocid.data := by
    simpa [stringIncludesColon, List.contains, List.elem_iff] using h2
  have hdata : (oc ++ ":" ++ ocid).data = oc.data ++ ':' :: ocid.data := by
    simp [String.data_append]
  have hinc : stringIncludesColon (oc ++ ":" ++ ocid) = true := by
    unfold stringIncludesColon
    rw [hdata]
    simp [List.contains, List.elem_iff]
  unfold parseSystemOrigin
  rw [if_pos hinc]
  unfold jsSplitLimit2
  rw [hdata, splitLimit2Chars_append ocid.data hocid oc.data hoc]

/-- Counterexample to C9 as stated: for an origin chat id that itself
contains a colon, the limit-2 split of the system branch does not invert the
announce encoding — the reply is addressed to the truncated chat id. -/
theorem subagent_origin_roundtrip_counterexample :
    (announceResult "lbl" "task" "result" ("telegram", "42:7") true 0).chatId =
      "telegram:42:7" ∧
    parseSystemOrigin "telegram:42:7" = ("telegram", "42") ∧
    (("telegram", "42") : String × String) ≠ ("telegram", "42:7") ∧
    (processSystemMessage "sys" 0 stubProvider emptyRegistry 20 (Session.create "telegram:42" 0)
      (announceResult "lbl" "task" "result" ("telegram", "42:7") true 0)).outbound.chatId =
      "42" :=
  ⟨rfl, rfl, by decide, rfl⟩

/-- Claim C9 (amended): for every origin pair whose components are free of
colons, a completing or failing subagent publishes onto the bus inbound
queue a synthetic inbound message with channel `system` whose chat id is
`originChannel:originChatId`, and the system branch of the loop parses that
chat id back into the pair and addresses its outbound reply to exactly that
channel and chat id. -/
theorem subagent_announce_roundtrip (label task result : String) (statusOk : Bool)
    (now1 : Nat) (originChannel originChatId : String) (systemPrompt : String) (now2 : Nat)
    (provider : List Msg → LLMResponse) (tools : ToolRegistry) (maxIterations : Nat)
    (session : Session)
    (h1 : stringIncludesColon originChannel = false)
    (h2 : stringIncludesColon originChatId = false) :
    (announceResult label task result (originChannel, originChatId) statusOk now1).channel =
      "system" ∧
    (announceResult label task result (originChannel, originChatId) statusOk now1).chatId =
      originChannel ++ ":" ++ originChatId ∧
    (MessageBus.publishInbound
      (MessageBus.mk (AsyncQueue.mk [] []) (AsyncQueue.mk [] []))
      (announceResult label task result (originChannel, originChatId) statusOk
        now1)).1.inbound.items =
      [announceResult label task result (originChannel, originChatId) statusOk now1] ∧
    (processSystemMessage systemPrompt now2 provider tools maxIterations session
      (announceResult label task result (originChannel, originChatId) statusOk
        now1)).outbound.channel = originChannel ∧
    (processSystemMessage systemPrompt now2 provider tools maxIterations session
      (announceResult label task result (originChannel, originChatId) statusOk
        now1)).outbound.chatId = originChatId := by
  have hparse := parseSystemOrigin_roundtrip originChannel originChatId h1 h2
  refine ⟨rfl, rfl, rfl, ?_, ?_⟩
  · simp [processSystemMessage, announceResult, hparse]
  · simp [processSystemMessage, announceResult, hparse]

/-- Witness for the amended C9 at a concrete colon-free origin pair. -/
theorem subagent_announce_roundtrip_witness :
    stringIncludesColon "telegram" = false ∧
    stringIncludesColon "4242" = false ∧
    ((announceResult "lbl" "task" "result" ("telegram", "4242") true 0).channel = "system" ∧
     (announceResult "lbl" "task" "result" ("telegram", "4242") true 0).chatId =
       "telegram" ++ ":" ++ "4242" ∧
     (MessageBus.publishInbound
       (MessageBus.mk (AsyncQueue.mk [] []) (AsyncQueue.mk [] []))
       (announceResult "lbl" "task" "result" ("telegram", "4242") true 0)).1.inbound.items =
       [announceResult "lbl" "task" "result" ("telegram", "4242") true 0] ∧
     (processSystemMessage "sys" 0 stubProvider emptyRegistry 20
       (Session.create "telegram:4242" 0)
       (announceResult "lbl" "task" "result" ("telegram", "4242") true 0)).outbound.channel =
       "telegram" ∧
     (processSystemMessage "sys" 0 stubProvider emptyRegistry 20
       (Session.create "telegram:4242" 0)
       (announceResult "lbl" "task" "result" ("telegram", "4242") true 0)).outbound.chatId =
       "4242") :=
  ⟨rfl, rfl,
    subagent_announce_roundtrip "lbl" "task" "result" true 0 "telegram" "4242" "sys" 0
      stubProvider emptyRegistry 20 (Session.create "telegram:4242" 0) rfl rfl⟩
